import Mathlib

/-!
Shallow embedding of the appointment scheduling engine
(`appointment_service.py`) and proofs of its specification claims.

Python dictionaries holding the appointment records become a Lean
structure `Appointment`; the two module-level globals (`appointments_db`
and `idempotency_keys`) become an explicit `ServiceState` threaded
through the mutating operations; `ValueError` / `RuntimeError` raising
becomes `Except` with structured error values that keep the distinct
message kinds apart.  The nondeterministic `uuid.uuid4()` draws are
modelled by an explicit stream `gen : Nat → String` of the 8-character
fragments the code slices from each uuid.
-/

/-- A Python value as it can appear in a request payload field: the
validation code distinguishes strings, integers and everything else
via `isinstance`. -/
inductive PyVal where
  | str (s : String)
  | int (n : Int)
  | other
deriving DecidableEq, Repr

/-- An appointment record as stored in `appointments_db`. -/
structure Appointment where
  id : String
  patientName : String
  date : String
  time : String
  duration : Int
  doctorName : String
  status : String
  mode : String
deriving DecidableEq, Repr

/-- A create-request payload: each field is optional (the key may be
absent from the Python dict) and carries an arbitrary Python value.
The `status` field is accepted but ignored by `create_appointment`. -/
structure Payload where
  patientName : Option PyVal
  date : Option PyVal
  time : Option PyVal
  duration : Option PyVal
  doctorName : Option PyVal
  mode : Option PyVal
  status : Option PyVal
deriving DecidableEq, Repr

/-- The process-wide mutable state: the record list `appointments_db`
and the idempotency ledger `idempotency_keys` (a Python dict, modelled
as an insertion-ordered association list). -/
structure ServiceState where
  db : List Appointment
  ledger : List (String × Appointment)
deriving DecidableEq, Repr

/-- Lookup in an insertion-ordered association list (Python `dict`
membership and subscript). -/
def alistLookup {α : Type} : List (String × α) → String → Option α
  | [], _ => none
  | (k, v) :: rest, key => if k = key then some v else alistLookup rest key

/-- Insert-or-overwrite in an insertion-ordered association list
(Python `d[k] = v`). -/
def alistInsert {α : Type} : List (String × α) → String → α → List (String × α)
  | [], key, v => [(key, v)]
  | (k, w) :: rest, key, v =>
      if k = key then (key, v) :: rest else (k, w) :: alistInsert rest key v

/-- Python truthiness of an optional string argument: `if idempotency_key:`
is false both for `None` and for the empty string. -/
def optTruthy : Option String → Bool
  | none => false
  | some s => s != ""

/-- The string value of an optional key (only consulted when truthy). -/
def optVal : Option String → String
  | none => ""
  | some s => s

/-- Split a character list on a separator character (the character-level
behaviour of Python `str.split` with an explicit separator, which
`strptime` format matching amounts to here). -/
def splitOnChar (c : Char) : List Char → List (List Char)
  | [] => [[]]
  | x :: xs =>
    match splitOnChar c xs with
    | [] => if x = c then [[], []] else [[x]]
    | y :: ys => if x = c then [] :: y :: ys else (x :: y) :: ys

/-- A non-empty group of decimal digits. -/
def isDigitGroup (cs : List Char) : Bool :=
  cs.length > 0 && cs.all (fun c => c.isDigit)

/-- Numeric value of a digit group. -/
def digitsToNat (cs : List Char) : Nat :=
  cs.foldl (fun n c => n * 10 + (c.toNat - 48)) 0

/-- Python `not s.strip()`: every character is whitespace (or the string
is empty), i.e. the stripped string is empty. -/
def isBlank (s : String) : Bool :=
  s.toList.all (fun c => c.isWhitespace)

/-- Days in a month, with Gregorian leap years, as `datetime` checks. -/
def daysInMonth (y m : Nat) : Nat :=
  if m = 2 then
    if (y % 4 = 0 && y % 100 != 0) || y % 400 = 0 then 29 else 28
  else if m = 4 || m = 6 || m = 9 || m = 11 then 30
  else 31

/-- Model of `datetime.strptime(s, "%Y-%m-%d")`: three dash-separated
digit groups (year up to 4 digits, month and day up to 2), forming a
real calendar date with year 1–9999. -/
def parseDate (s : String) : Option (Nat × Nat × Nat) :=
  match splitOnChar '-' s.toList with
  | [ys, ms, ds] =>
    if isDigitGroup ys && isDigitGroup ms && isDigitGroup ds
        && ys.length ≤ 4 && ms.length ≤ 2 && ds.length ≤ 2 then
      let y := digitsToNat ys
      let m := digitsToNat ms
      let d := digitsToNat ds
      if 1 ≤ y && 1 ≤ m && m ≤ 12 && 1 ≤ d && d ≤ daysInMonth y m then
        some (y, m, d)
      else none
    else none
  | _ => none

/-- Model of `datetime.strptime(s, "%H:%M")`, returning the slot start
in minutes since midnight (`hour * 60 + minute` as the code computes). -/
def parseTimeMinutes (s : String) : Option Int :=
  match splitOnChar ':' s.toList with
  | [hs, ms] =>
    if isDigitGroup hs && isDigitGroup ms && hs.length ≤ 2 && ms.length ≤ 2 then
      let h := digitsToNat hs
      let m := digitsToNat ms
      if h ≤ 23 && m ≤ 59 then some ((h : Int) * 60 + (m : Int)) else none
    else none
  | _ => none

/-- `is_valid_status`: membership in the four `AppointmentStatus` values. -/
def is_valid_status (status : String) : Bool :=
  status == "Confirmed" || status == "Scheduled" || status == "Upcoming"
    || status == "Cancelled"

/-- `is_valid_mode`: membership in the two `AppointmentMode` values. -/
def is_valid_mode (mode : String) : Bool :=
  mode == "online" || mode == "in-person"

/-- The patient-name block of `validate_appointment_data_detailed`:
required, a string, not blank. -/
def checkPatientName : Option PyVal → List String
  | none => ["Patient name is required"]
  | some (PyVal.str s) =>
      if isBlank s then ["Patient name cannot be empty or whitespace only"] else []
  | some _ => ["Patient name must be a string"]

/-- The date block: required, a string, `strptime`-parseable as
`YYYY-MM-DD`. -/
def checkDate : Option PyVal → List String
  | none => ["Date is required"]
  | some (PyVal.str s) =>
      if (parseDate s).isSome then [] else ["Date must be in YYYY-MM-DD format"]
  | some _ => ["Date must be a string"]

/-- The time block: required, a string, `strptime`-parseable as `HH:MM`. -/
def checkTime : Option PyVal → List String
  | none => ["Time is required"]
  | some (PyVal.str s) =>
      if (parseTimeMinutes s).isSome then [] else ["Time must be in HH:MM format (24-hour)"]
  | some _ => ["Time must be a string"]

/-- The duration block: required, an integer, positive, at most 480. -/
def checkDuration : Option PyVal → List String
  | none => ["Duration is required"]
  | some (PyVal.int n) =>
      if n ≤ 0 then ["Duration must be greater than 0 minutes"]
      else if n > 480 then ["Duration cannot exceed 480 minutes (8 hours)"]
      else []
  | some _ => ["Duration must be an integer"]

/-- The doctor-name block: required, a string, not blank. -/
def checkDoctorName : Option PyVal → List String
  | none => ["Doctor name is required"]
  | some (PyVal.str s) =>
      if isBlank s then ["Doctor name cannot be empty or whitespace only"] else []
  | some _ => ["Doctor name must be a string"]

/-- The mode block: required, a string, one of the two valid modes. -/
def checkMode : Option PyVal → List String
  | none => ["Appointment mode is required"]
  | some (PyVal.str s) =>
      if is_valid_mode s then [] else ["Appointment mode must be one of: online, in-person"]
  | some _ => ["Appointment mode must be a string"]

/-- `validate_appointment_data_detailed`: the six field checks run in
order, each appending its failure message to the accumulating error
list; returns `(ok, errors)` with `ok` true exactly when no message
accumulated. -/
def validate_appointment_data_detailed (data : Payload) : Bool × List String :=
  let errors : List String := []
  let errors := errors ++ checkPatientName data.patientName
  let errors := errors ++ checkDate data.date
  let errors := errors ++ checkTime data.time
  let errors := errors ++ checkDuration data.duration
  let errors := errors ++ checkDoctorName data.doctorName
  let errors := errors ++ checkMode data.mode
  (errors.length == 0, errors)

/-- Field access `payload["patientName"]` on a payload that passed string
validation (only evaluated on validated fields). -/
def pyStr : Option PyVal → String
  | some (PyVal.str s) => s
  | _ => ""

/-- Field access `payload["duration"]` on a payload that passed integer
validation (only evaluated on validated fields). -/
def pyInt : Option PyVal → Int
  | some (PyVal.int n) => n
  | _ => 0

/-- The scan of `get_appointment_by_id`: first record with matching id. -/
def findById (appointment_id : String) : List Appointment → Option Appointment
  | [] => none
  | a :: rest => if a.id = appointment_id then some a else findById appointment_id rest

/-- `get_appointment_by_id`: rejects an empty id with `ValueError`, then
returns the first exact id match (a deep copy, i.e. the same value) or
`None`. -/
def get_appointment_by_id (appointment_id : String) (db : List Appointment) :
    Except String (Option Appointment) :=
  if appointment_id = "" then Except.error "Appointment ID cannot be empty"
  else Except.ok (findById appointment_id db)

/-- `ensure_unique_appointment_id`: no stored record already has this id. -/
def ensure_unique_appointment_id (appointment_id : String) (db : List Appointment) : Bool :=
  !(db.any (fun apt => apt.id == appointment_id))

/-- The retry loop of `generate_unique_id_with_retry`: up to `fuel`
draws from the uuid stream, prefixed with `apt_`, first unique one wins. -/
def genIdAttempts (db : List Appointment) (gen : Nat → String) : Nat → Nat → Option String
  | _, 0 => none
  | i, fuel + 1 =>
    let newId := "apt_" ++ gen i
    if ensure_unique_appointment_id newId db then some newId
    else genIdAttempts db gen (i + 1) fuel

/-- `generate_unique_id_with_retry`: bounded retry over fresh uuid draws;
`none` models the fatal `RuntimeError` after exhausting `max_retries`. -/
def generate_unique_id_with_retry (db : List Appointment) (gen : Nat → String)
    (max_retries : Nat) : Option String :=
  genIdAttempts db gen 0 max_retries

/-- The loop body of `detect_scheduling_conflicts`: scan the store,
skipping records on a different date or doctor and the record sharing
the candidate id; a record whose time fails to parse raises inside the
single `try`, aborting the scan with the conflicts found so far. -/
def detectLoop (cand : Appointment) (s e : Int) : List Appointment → List Appointment
  | [] => []
  | x :: rest =>
    if x.date ≠ cand.date ∨ x.doctorName ≠ cand.doctorName then detectLoop cand s e rest
    else if x.id = cand.id then detectLoop cand s e rest
    else match parseTimeMinutes x.time with
      | none => []
      | some t =>
        if s < t + x.duration ∧ e > t then x :: detectLoop cand s e rest
        else detectLoop cand s e rest

/-- `detect_scheduling_conflicts`: every stored record on the candidate
date and doctor, other than the candidate itself, whose half-open minute
interval overlaps the candidate interval under
`apt_start < existing_end and apt_end > existing_start`. -/
def detect_scheduling_conflicts (appointment : Appointment) (db : List Appointment) :
    List Appointment :=
  match parseTimeMinutes appointment.time with
  | none => []
  | some s => detectLoop appointment s (s + appointment.duration) db

/-- Errors raised by `create_appointment`, separated by their distinct
`ValueError` / `RuntimeError` messages. -/
inductive CreateError where
  | validationFailed (message : String)
  | schedulingConflicts (message : String)
  | idGenerationFailed (message : String)
deriving DecidableEq, Repr

/-- The record `create_appointment` builds: payload fields copied over,
a freshly generated id, and status forced to `Scheduled`. -/
def mkNewAppointment (newId : String) (payload : Payload) : Appointment :=
  ⟨newId, pyStr payload.patientName, pyStr payload.date, pyStr payload.time,
    pyInt payload.duration, pyStr payload.doctorName, "Scheduled", pyStr payload.mode⟩

/-- The miss path of `create_appointment`: detailed validation, unique id
generation, conflict detection, append, and ledger registration when a
truthy key was supplied. -/
def createFresh (payload : Payload) (idempotency_key : Option String)
    (gen : Nat → String) (st : ServiceState) :
    Except CreateError (Appointment × ServiceState) :=
  let vr := validate_appointment_data_detailed payload
  if vr.1 = false then
    Except.error (CreateError.validationFailed
      ("Validation failed: " ++ String.intercalate "; " vr.2))
  else
    match generate_unique_id_with_retry st.db gen 10 with
    | none => Except.error (CreateError.idGenerationFailed
        "Unable to generate unique appointment ID after 10 attempts")
    | some newId =>
      let newApt := mkNewAppointment newId payload
      let conflicts := detect_scheduling_conflicts newApt st.db
      if conflicts.isEmpty then
        Except.ok (newApt, ⟨st.db ++ [newApt],
          if optTruthy idempotency_key then
            alistInsert st.ledger (optVal idempotency_key) newApt
          else st.ledger⟩)
      else
        Except.error (CreateError.schedulingConflicts
          ("Scheduling conflicts detected: " ++ String.intercalate "; "
            (conflicts.map (fun c => "Conflict with appointment " ++ c.id ++ " at " ++ c.time))))

/-- `create_appointment`: a truthy idempotency key already in the ledger
replays the stored result without touching the state; otherwise the
fresh-creation path runs. -/
def create_appointment (payload : Payload) (idempotency_key : Option String)
    (gen : Nat → String) (st : ServiceState) :
    Except CreateError (Appointment × ServiceState) :=
  if optTruthy idempotency_key then
    match alistLookup st.ledger (optVal idempotency_key) with
    | some r => Except.ok (r, st)
    | none => createFresh payload idempotency_key gen st
  else createFresh payload idempotency_key gen st

/-- Errors raised by `update_appointment_status`, separated by their
distinct `ValueError` messages. -/
inductive UpdateError where
  | emptyAppointmentId
  | invalidStatus (status : String)
  | notFound (appointment_id : String)
deriving DecidableEq, Repr

/-- Replace the status field, leaving every other field as it was. -/
def setStatus (a : Appointment) (new_status : String) : Appointment :=
  ⟨a.id, a.patientName, a.date, a.time, a.duration, a.doctorName, new_status, a.mode⟩

/-- The scan of `update_appointment_status`: mutate the status of the
first record with the given id in place, returning the updated record
and the updated store. -/
def findAndUpdate (appointment_id new_status : String) :
    List Appointment → Option (Appointment × List Appointment)
  | [] => none
  | a :: rest =>
    if a.id = appointment_id then
      some (setStatus a new_status, setStatus a new_status :: rest)
    else
      match findAndUpdate appointment_id new_status rest with
      | some (r, rest2) => some (r, a :: rest2)
      | none => none

/-- The miss path of `update_appointment_status`: empty-id check, status
validity check, then locate-and-mutate, registering the result under a
truthy key. -/
def updateFresh (appointment_id new_status : String) (idempotency_key : Option String)
    (st : ServiceState) : Except UpdateError (Appointment × ServiceState) :=
  if appointment_id = "" then Except.error UpdateError.emptyAppointmentId
  else if is_valid_status new_status = false then
    Except.error (UpdateError.invalidStatus new_status)
  else
    match findAndUpdate appointment_id new_status st.db with
    | some (r, db2) =>
        Except.ok (r, ⟨db2,
          if optTruthy idempotency_key then
            alistInsert st.ledger (optVal idempotency_key) r
          else st.ledger⟩)
    | none => Except.error (UpdateError.notFound appointment_id)

/-- `update_appointment_status`: a truthy idempotency key already in the
ledger replays the stored result without touching the state; otherwise
the update path runs. -/
def update_appointment_status (appointment_id new_status : String)
    (idempotency_key : Option String) (st : ServiceState) :
    Except UpdateError (Appointment × ServiceState) :=
  if optTruthy idempotency_key then
    match alistLookup st.ledger (optVal idempotency_key) with
    | some r => Except.ok (r, st)
    | none => updateFresh appointment_id new_status idempotency_key st
  else updateFresh appointment_id new_status idempotency_key st

/-- The cluster key `f"{date}_{doctor}_{min(start_a, start_b)}"`. -/
def overlapKey (date doctor : String) (sa sb : Int) : String :=
  date ++ "_" ++ doctor ++ "_" ++ toString (min sa sb)

/-- One iteration of the pairwise scan in `get_overlapping_appointments`:
a pair on the same date and doctor whose times parse and whose intervals
overlap is appended to its cluster; the membership test for the second
record reuses the id list computed before the first was appended. -/
def processPair (m : List (String × List Appointment)) (a1 a2 : Appointment) :
    List (String × List Appointment) :=
  if a1.date ≠ a2.date ∨ a1.doctorName ≠ a2.doctorName then m
  else
    match parseTimeMinutes a1.time, parseTimeMinutes a2.time with
    | some s1, some s2 =>
      if s1 < s2 + a2.duration ∧ s2 < s1 + a1.duration then
        let key := overlapKey a1.date a1.doctorName s1 s2
        let cur := (alistLookup m key).getD []
        let ids := cur.map (fun apt => apt.id)
        let cur2 := if a1.id ∈ ids then cur else cur ++ [a1]
        let cur3 := if a2.id ∈ ids then cur2 else cur2 ++ [a2]
        alistInsert m key cur3
      else m
    | _, _ => m

/-- The nested loop `for i ...: for j in range(i+1, ...)` over all pairs. -/
def scanPairs : List Appointment → List (String × List Appointment) →
    List (String × List Appointment)
  | [], m => m
  | x :: xs, m => scanPairs xs (xs.foldl (fun acc y => processPair acc x y) m)

/-- The date pre-filter of `get_overlapping_appointments` (applied only
for a truthy date argument). -/
def filterByDate (appointments : List Appointment) (date : Option String) :
    List Appointment :=
  if optTruthy date then appointments.filter (fun apt => apt.date == optVal date)
  else appointments

/-- `get_overlapping_appointments`: group pairwise-overlapping records
(same date and doctor) into clusters keyed by date, doctor and the
earlier of the two start times. -/
def get_overlapping_appointments (appointments : List Appointment)
    (date : Option String) : List (String × List Appointment) :=
  if appointments.isEmpty then []
  else scanPairs (filterByDate appointments date) []

/-- The member list of one cluster (`overlaps[key]`, empty when absent). -/
def clusterOf (m : List (String × List Appointment)) (key : String) :
    List Appointment :=
  (alistLookup m key).getD []

/-- Specification predicate: the field holds a non-blank string (the
patient-name and doctor-name checks of the spec). -/
def nonBlankStringOk : Option PyVal → Bool
  | some (PyVal.str s) => !(isBlank s)
  | _ => false

/-- Specification predicate: the field holds a string parseable as a
`YYYY-MM-DD` date. -/
def dateFieldOk : Option PyVal → Bool
  | some (PyVal.str s) => (parseDate s).isSome
  | _ => false

/-- Specification predicate: the field holds a string parseable as a
24-hour `HH:MM` time. -/
def timeFieldOk : Option PyVal → Bool
  | some (PyVal.str s) => (parseTimeMinutes s).isSome
  | _ => false

/-- Specification predicate: the field holds an integer strictly greater
than 0 and at most 480. -/
def durationFieldOk : Option PyVal → Bool
  | some (PyVal.int n) => decide (0 < n) && decide (n ≤ 480)
  | _ => false

/-- Specification predicate: the field holds one of the two mode strings. -/
def modeFieldOk : Option PyVal → Bool
  | some (PyVal.str s) => is_valid_mode s
  | _ => false

/-- Specification predicate for conflict detection, written from the
spec sentence: same date and doctor, a different id, and half-open
minute intervals intersecting under
`candidate.start < other.end AND candidate.end > other.start`. -/
def conflictsWith (cand x : Appointment) : Bool :=
  match parseTimeMinutes cand.time, parseTimeMinutes x.time with
  | some s, some t =>
      (x.date == cand.date) && (x.doctorName == cand.doctorName)
        && !(x.id == cand.id)
        && decide (s < t + x.duration) && decide (s + cand.duration > t)
  | _, _ => false

/-- Frame relation for a status update: every field except `status`
agrees, and `status` itself agrees unless the record carries the
updated id. -/
def frameRel (appointment_id : String) (old new : Appointment) : Prop :=
  new.id = old.id ∧ new.patientName = old.patientName ∧ new.date = old.date
    ∧ new.time = old.time ∧ new.duration = old.duration
    ∧ new.doctorName = old.doctorName ∧ new.mode = old.mode
    ∧ (old.id ≠ appointment_id → new.status = old.status)

/-- Specification predicate for the overlap analyzer, written from the
spec sentence: the unordered pair shares date and doctor and the
half-open minute intervals of the two records overlap. -/
def pairHit (a b : Appointment) : Prop :=
  a.date = b.date ∧ a.doctorName = b.doctorName ∧
    ∃ sa sb, parseTimeMinutes a.time = some sa ∧ parseTimeMinutes b.time = some sb ∧
      sa < sb + b.duration ∧ sb < sa + a.duration

/-- The cluster key of an overlapping pair, written from the spec
sentence `date + doctor + min(start_a, start_b)`. -/
def pairKey (a b : Appointment) : String :=
  overlapKey a.date a.doctorName
    ((parseTimeMinutes a.time).getD 0) ((parseTimeMinutes b.time).getD 0)

/-- Sample record: Dr. X, 2024-02-01, 09:00–09:30. -/
def apt1 : Appointment :=
  ⟨"apt_a", "A", "2024-02-01", "09:00", 30, "Dr. X", "Scheduled", "in-person"⟩

/-- Sample record overlapping `apt1`: Dr. X, 2024-02-01, 09:15–09:45. -/
def apt2 : Appointment :=
  ⟨"apt_b", "B", "2024-02-01", "09:15", 30, "Dr. X", "Scheduled", "in-person"⟩

/-- Sample record touching `apt1`: Dr. X, 2024-02-01, 09:30–10:00. -/
def apt3 : Appointment :=
  ⟨"apt_c", "C", "2024-02-01", "09:30", 30, "Dr. X", "Scheduled", "in-person"⟩

/-- A valid payload matching `apt1`'s slot. -/
def pay1 : Payload :=
  ⟨some (PyVal.str "A"), some (PyVal.str "2024-02-01"), some (PyVal.str "09:00"),
    some (PyVal.int 30), some (PyVal.str "Dr. X"), some (PyVal.str "in-person"), none⟩

/-- A valid payload for a non-overlapping later slot, 14:00–14:30. -/
def pay2 : Payload :=
  ⟨some (PyVal.str "B"), some (PyVal.str "2024-02-01"), some (PyVal.str "14:00"),
    some (PyVal.int 30), some (PyVal.str "Dr. X"), some (PyVal.str "in-person"), none⟩

/-- An invalid payload: patient name and doctor name both missing. -/
def payBad : Payload :=
  ⟨none, some (PyVal.str "2024-02-01"), some (PyVal.str "09:00"),
    some (PyVal.int 30), none, some (PyVal.str "in-person"), none⟩

/-- A uuid-fragment stream drawing `11111111` every time. -/
def gen1 : Nat → String := fun _ => "11111111"

/-- A uuid-fragment stream drawing `22222222` every time. -/
def gen2 : Nat → String := fun _ => "22222222"

/-- The record created from `pay1` under the `gen1` uuid stream. -/
def rec1 : Appointment := mkNewAppointment "apt_11111111" pay1

/-- The record created from `pay2` under the `gen2` uuid stream. -/
def rec2 : Appointment := mkNewAppointment "apt_22222222" pay2

/-- Invariant of the pairwise overlap scan: every cluster member comes
from the scanned collection `S`, and no cluster holds two members with
the same id. -/
def OverlapInv (S : List Appointment) (m : List (String × List Appointment)) : Prop :=
  ∀ k, (∀ x ∈ clusterOf m k, x ∈ S) ∧
    ((clusterOf m k).map (fun apt => apt.id)).Nodup

/-- Lookup after insert-or-overwrite finds the inserted value. -/
theorem alistLookup_insert_self {α : Type} (m : List (String × α)) (k : String) (v : α) :
    alistLookup (alistInsert m k v) k = some v := by
  induction m with
  | nil => simp [alistInsert, alistLookup]
  | cons hd tl ih =>
    obtain ⟨k2, w⟩ := hd
    by_cases h : k2 = k
    · simp [alistInsert, h, alistLookup]
    · simp [alistInsert, h, alistLookup, ih]

/-- The scan of `get_appointment_by_id` is `List.find?` on exact id match. -/
theorem findById_eq_find (appointment_id : String) (l : List Appointment) :
    findById appointment_id l = l.find? (fun a => a.id == appointment_id) := by
  induction l with
  | nil => rfl
  | cons a rest ih =>
    by_cases h : a.id = appointment_id
    · simp [findById, h, List.find?]
    · simp only [findById, if_neg h, ih, List.find?]
      have hb : (a.id == appointment_id) = false := by simp [h]
      rw [hb]

/-- `C10` (amended): for every non-empty id, `get_appointment_by_id`
returns the stored record whose id exactly matches when one exists and
`None` otherwise, without raising. -/
theorem claim_C10 (appointment_id : String) (db : List Appointment)
    (h : appointment_id ≠ "") :
    get_appointment_by_id appointment_id db =
      Except.ok (db.find? (fun a => a.id == appointment_id)) := by
  unfold get_appointment_by_id
  rw [if_neg h, findById_eq_find]

/-- `C10` counterexample: on the empty id the function raises
`ValueError` instead of returning `None`, contradicting the claim for
the empty string. -/
theorem claim_C10_counterexample :
    get_appointment_by_id "" [] = Except.error "Appointment ID cannot be empty" := rfl

/-- `C10` witness: concrete non-empty id lookup through the theorem. -/
theorem claim_C10_witness :
    get_appointment_by_id "apt_a" [apt1, apt2] =
      Except.ok ([apt1, apt2].find? (fun a => a.id == "apt_a")) :=
  claim_C10 "apt_a" [apt1, apt2] (by decide)

/-- When no stored record carries the id, the update scan finds nothing. -/
theorem findAndUpdate_not_found (appointment_id new_status : String)
    (l : List Appointment) (h : ∀ x ∈ l, x.id ≠ appointment_id) :
    findAndUpdate appointment_id new_status l = none := by
  induction l with
  | nil => rfl
  | cons a rest ih =>
    have ha : a.id ≠ appointment_id := h a (by simp)
    simp only [findAndUpdate, if_neg ha]
    rw [ih (fun x hx => h x (by simp [hx]))]

/-- `C3` (amended): for every non-empty id absent from the store and
every status value that is one of the four valid statuses, a status
update with no key (or a fresh key) fails with the not-found error;
an invalid status value instead fails the earlier validity check, as
the counterexample shows. -/
theorem claim_C3 (appointment_id new_status : String) (key : Option String)
    (st : ServiceState) (hid : appointment_id ≠ "")
    (hs : is_valid_status new_status = true)
    (hkey : optTruthy key = true → alistLookup st.ledger (optVal key) = none)
    (hnot : ∀ x ∈ st.db, x.id ≠ appointment_id) :
    update_appointment_status appointment_id new_status key st =
      Except.error (UpdateError.notFound appointment_id) := by
  have hcore : updateFresh appointment_id new_status key st =
      Except.error (UpdateError.notFound appointment_id) := by
    unfold updateFresh
    rw [if_neg hid, if_neg (by simp [hs]),
      findAndUpdate_not_found appointment_id new_status st.db hnot]
  unfold update_appointment_status
  by_cases hk : optTruthy key = true
  · rw [if_pos hk, hkey hk]
    exact hcore
  · rw [if_neg hk]
    exact hcore

/-- `C3` counterexample: an unknown id together with an invalid status
value fails with the invalid-status error, not the not-found error the
claim demands. -/
theorem claim_C3_counterexample :
    update_appointment_status "ghost" "Bogus" none ⟨[], []⟩ =
        Except.error (UpdateError.invalidStatus "Bogus") ∧
      UpdateError.invalidStatus "Bogus" ≠ UpdateError.notFound "ghost" :=
  ⟨rfl, by decide⟩

/-- `C3` witness: concrete unknown id with a valid status value. -/
theorem claim_C3_witness :
    update_appointment_status "ghost" "Confirmed" none ⟨[apt1], []⟩ =
      Except.error (UpdateError.notFound "ghost") :=
  claim_C3 "ghost" "Confirmed" none ⟨[apt1], []⟩ (by decide) (by decide)
    (by decide) (by decide)

/-- `C6` (amended): the idempotency ledger is shared across operation
types: a truthy key present in the ledger makes both `create_appointment`
and `update_appointment_status` replay the stored result verbatim and
leave the state untouched, regardless of which operation stored it. -/
theorem claim_C6 (k : String) (r : Appointment) (st : ServiceState)
    (payload : Payload) (g : Nat → String) (appointment_id new_status : String)
    (hk : k ≠ "") (hhit : alistLookup st.ledger k = some r) :
    create_appointment payload (some k) g st = Except.ok (r, st) ∧
      update_appointment_status appointment_id new_status (some k) st =
        Except.ok (r, st) := by
  have ht : optTruthy (some k) = true := by simp [optTruthy, hk]
  refine ⟨?_, ?_⟩
  · unfold create_appointment
    rw [if_pos ht]
    simp only [optVal, hhit]
  · unfold update_appointment_status
    rw [if_pos ht]
    simp only [optVal, hhit]

/-- `C6` counterexample: a key first used by `update_appointment_status`
short-circuits a later `create_appointment` with the same key: the
create call replays the update result (status `Confirmed`, the updated
record) and appends nothing, contradicting the per-operation-type
ledger of the claim. -/
theorem claim_C6_counterexample :
    update_appointment_status "apt_a" "Confirmed" (some "kk") ⟨[apt1], []⟩ =
        Except.ok (setStatus apt1 "Confirmed",
          ⟨[setStatus apt1 "Confirmed"], [("kk", setStatus apt1 "Confirmed")]⟩) ∧
      create_appointment pay2 (some "kk") gen1
          ⟨[setStatus apt1 "Confirmed"], [("kk", setStatus apt1 "Confirmed")]⟩ =
        Except.ok (setStatus apt1 "Confirmed",
          ⟨[setStatus apt1 "Confirmed"], [("kk", setStatus apt1 "Confirmed")]⟩) :=
  ⟨rfl, rfl⟩

/-- `C6` witness: concrete replay of a ledger hit by both operations. -/
theorem claim_C6_witness :
    create_appointment pay1 (some "kk") gen1 ⟨[], [("kk", apt1)]⟩ =
        Except.ok (apt1, ⟨[], [("kk", apt1)]⟩) ∧
      update_appointment_status "zz" "Confirmed" (some "kk") ⟨[], [("kk", apt1)]⟩ =
        Except.ok (apt1, ⟨[], [("kk", apt1)]⟩) :=
  claim_C6 "kk" apt1 ⟨[], [("kk", apt1)]⟩ pay1 gen1 "zz" "Confirmed"
    (by decide) (by decide)

/-- `C7` (amended): when `create_appointment` rejects a payload failing
business-rule validation, it raises a single `ValueError` whose message
is the individual field messages merged into one flat string, joined by
a semicolon separator after the prefix `Validation failed: `. -/
theorem claim_C7 (payload : Payload) (g : Nat → String) (st : ServiceState)
    (h : (validate_appointment_data_detailed payload).1 = false) :
    create_appointment payload none g st =
      Except.error (CreateError.validationFailed
        ("Validation failed: " ++ String.intercalate "; "
          (validate_appointment_data_detailed payload).2)) := by
  unfold create_appointment
  rw [if_neg (by simp [optTruthy])]
  unfold createFresh
  simp only [h, if_pos]

/-- `C7` counterexample: a payload with two failing checks produces one
flat joined message string, not a structured list of field errors. -/
theorem claim_C7_counterexample :
    create_appointment payBad none gen1 ⟨[], []⟩ =
      Except.error (CreateError.validationFailed
        "Validation failed: Patient name is required; Doctor name is required") := rfl

/-- `C7` witness: concrete invalid payload through the theorem. -/
theorem claim_C7_witness :
    create_appointment payBad none gen2 ⟨[apt1], []⟩ =
      Except.error (CreateError.validationFailed
        ("Validation failed: " ++ String.intercalate "; "
          (validate_appointment_data_detailed payBad).2)) :=
  claim_C7 payBad gen2 ⟨[apt1], []⟩ (by decide)

/-- The patient-name / doctor-name block passes exactly on a non-blank
string field. -/
theorem checkPatientName_nil_iff (v : Option PyVal) :
    checkPatientName v = [] ↔ nonBlankStringOk v = true := by
  match v with
  | none => simp [checkPatientName, nonBlankStringOk]
  | some (PyVal.str s) =>
    by_cases hb : isBlank s <;> simp [checkPatientName, nonBlankStringOk, hb]
  | some (PyVal.int n) => simp [checkPatientName, nonBlankStringOk]
  | some PyVal.other => simp [checkPatientName, nonBlankStringOk]

/-- The doctor-name block shares the patient-name block shape. -/
theorem checkDoctorName_nil_iff (v : Option PyVal) :
    checkDoctorName v = [] ↔ nonBlankStringOk v = true := by
  match v with
  | none => simp [checkDoctorName, nonBlankStringOk]
  | some (PyVal.str s) =>
    by_cases hb : isBlank s <;> simp [checkDoctorName, nonBlankStringOk, hb]
  | some (PyVal.int n) => simp [checkDoctorName, nonBlankStringOk]
  | some PyVal.other => simp [checkDoctorName, nonBlankStringOk]

/-- The date block passes exactly on a parseable date string field. -/
theorem checkDate_nil_iff (v : Option PyVal) :
    checkDate v = [] ↔ dateFieldOk v = true := by
  match v with
  | none => simp [checkDate, dateFieldOk]
  | some (PyVal.str s) =>
    by_cases hp : (parseDate s).isSome <;> simp [checkDate, dateFieldOk, hp]
  | some (PyVal.int n) => simp [checkDate, dateFieldOk]
  | some PyVal.other => simp [checkDate, dateFieldOk]

/-- The time block passes exactly on a parseable time string field. -/
theorem checkTime_nil_iff (v : Option PyVal) :
    checkTime v = [] ↔ timeFieldOk v = true := by
  match v with
  | none => simp [checkTime, timeFieldOk]
  | some (PyVal.str s) =>
    by_cases hp : (parseTimeMinutes s).isSome <;> simp [checkTime, timeFieldOk, hp]
  | some (PyVal.int n) => simp [checkTime, timeFieldOk]
  | some PyVal.other => simp [checkTime, timeFieldOk]

/-- The duration block passes exactly on an integer field in `(0, 480]`. -/
theorem checkDuration_nil_iff (v : Option PyVal) :
    checkDuration v = [] ↔ durationFieldOk v = true := by
  match v with
  | none => simp [checkDuration, durationFieldOk]
  | some (PyVal.int n) =>
    by_cases h1 : n ≤ 0
    · simp only [checkDuration, if_pos h1, durationFieldOk]
      simp
      omega
    · by_cases h2 : n > 480
      · simp only [checkDuration, if_neg h1, if_pos h2, durationFieldOk]
        simp
        omega
      · simp only [checkDuration, if_neg h1, if_neg h2, durationFieldOk]
        simp
        omega
  | some (PyVal.str s) => simp [checkDuration, durationFieldOk]
  | some PyVal.other => simp [checkDuration, durationFieldOk]

/-- The mode block passes exactly on a valid mode string field. -/
theorem checkMode_nil_iff (v : Option PyVal) :
    checkMode v = [] ↔ modeFieldOk v = true := by
  match v with
  | none => simp [checkMode, modeFieldOk]
  | some (PyVal.str s) =>
    by_cases hm : is_valid_mode s <;> simp [checkMode, modeFieldOk, hm]
  | some (PyVal.int n) => simp [checkMode, modeFieldOk]
  | some PyVal.other => simp [checkMode, modeFieldOk]

/-- `C5`: the detailed validator accepts exactly when all six field
checks pass (patient name non-blank string, parseable date, parseable
time, integer duration in `(0, 480]`, doctor name non-blank string,
mode in the two-element mode set), and on failure its error list is the
concatenation, in the fixed check order, of every failing check's
message — all failures accumulated, none short-circuited. -/
theorem claim_C5 (data : Payload) :
    ((validate_appointment_data_detailed data).1 = true ↔
      (nonBlankStringOk data.patientName = true ∧ dateFieldOk data.date = true ∧
        timeFieldOk data.time = true ∧ durationFieldOk data.duration = true ∧
        nonBlankStringOk data.doctorName = true ∧ modeFieldOk data.mode = true)) ∧
    (validate_appointment_data_detailed data).2 =
      checkPatientName data.patientName ++ checkDate data.date ++ checkTime data.time
        ++ checkDuration data.duration ++ checkDoctorName data.doctorName
        ++ checkMode data.mode := by
  have h2 : (validate_appointment_data_detailed data).2 =
      checkPatientName data.patientName ++ checkDate data.date ++ checkTime data.time
        ++ checkDuration data.duration ++ checkDoctorName data.doctorName
        ++ checkMode data.mode := by
    simp [validate_appointment_data_detailed, List.append_assoc]
  refine ⟨?_, h2⟩
  have h1 : (validate_appointment_data_detailed data).1 =
      ((validate_appointment_data_detailed data).2.length == 0) := by
    simp [validate_appointment_data_detailed]
  rw [h1, h2]
  simp only [List.length_append, beq_iff_eq, Nat.add_eq_zero, List.length_eq_zero,
    checkPatientName_nil_iff, checkDate_nil_iff, checkTime_nil_iff,
    checkDuration_nil_iff, checkDoctorName_nil_iff, checkMode_nil_iff, and_assoc]

/-- A successful draw from the retry loop passed the uniqueness check. -/
theorem genIdAttempts_unique (db : List Appointment) (g : Nat → String) :
    ∀ fuel i nid, genIdAttempts db g i fuel = some nid →
      ensure_unique_appointment_id nid db = true := by
  intro fuel
  induction fuel with
  | zero => intro i nid h; exact absurd h (by simp [genIdAttempts])
  | succ n ih =>
    intro i nid h
    simp only [genIdAttempts] at h
    by_cases hu : ensure_unique_appointment_id ("apt_" ++ g i) db = true
    · rw [if_pos hu] at h
      obtain rfl : "apt_" ++ g i = nid := by injection h
      exact hu
    · rw [if_neg hu] at h
      exact ih (i + 1) nid h

/-- A unique id differs from every id already stored. -/
theorem ensure_unique_fresh (nid : String) (db : List Appointment)
    (h : ensure_unique_appointment_id nid db = true) : ∀ x ∈ db, x.id ≠ nid := by
  intro x hx
  simp only [ensure_unique_appointment_id, Bool.not_eq_true', List.any_eq_false] at h
  simpa using h x hx

/-- Inversion of a successful fresh creation: validation passed, a fresh
id was drawn, no conflicts were found, and the state gained exactly the
new record (registered under a truthy key). -/
theorem createFresh_ok_inv (payload : Payload) (key : Option String)
    (g : Nat → String) (st : ServiceState) (r : Appointment) (st2 : ServiceState)
    (h : createFresh payload key g st = Except.ok (r, st2)) :
    (validate_appointment_data_detailed payload).1 = true ∧
    ∃ nid, generate_unique_id_with_retry st.db g 10 = some nid ∧
      r = mkNewAppointment nid payload ∧
      detect_scheduling_conflicts (mkNewAppointment nid payload) st.db = [] ∧
      st2 = ⟨st.db ++ [r],
        if optTruthy key then alistInsert st.ledger (optVal key) r else st.ledger⟩ := by
  by_cases hv : (validate_appointment_data_detailed payload).1 = false
  · simp [createFresh, hv] at h
  · have hv2 : (validate_appointment_data_detailed payload).1 = true := by
      revert hv; cases (validate_appointment_data_detailed payload).1 <;> simp
    cases hg : generate_unique_id_with_retry st.db g 10 with
    | none => simp [createFresh, hv, hg] at h
    | some nid =>
      by_cases hc :
          (detect_scheduling_conflicts (mkNewAppointment nid payload) st.db).isEmpty = true
      · simp only [createFresh, hv2, hv, hg, hc, if_true, if_false, Bool.true_eq_false,
          Except.ok.injEq, Prod.mk.injEq] at h
        refine ⟨hv2, nid, rfl, h.1.symm, by simpa [List.isEmpty_iff] using hc, ?_⟩
        rw [← h.2, ← h.1]
      · simp [createFresh, hv, hg, hc] at h

/-- `C2` (amended): for every non-empty idempotency key not already in
the ledger and every pair of payloads, a successful keyed create
followed by a second create with the same key returns the identical
result record both times, appends exactly one record to the store
across the two calls, and the second call leaves the state untouched. -/
theorem claim_C2 (p1 p2 : Payload) (k : String) (g1 g2 : Nat → String)
    (st st1 : ServiceState) (r1 : Appointment) (hk : k ≠ "")
    (hfresh : alistLookup st.ledger k = none)
    (h1 : create_appointment p1 (some k) g1 st = Except.ok (r1, st1)) :
    create_appointment p2 (some k) g2 st1 = Except.ok (r1, st1) ∧
      st1.db = st.db ++ [r1] := by
  have ht : optTruthy (some k) = true := by simp [optTruthy, hk]
  have h1f : createFresh p1 (some k) g1 st = Except.ok (r1, st1) := by
    unfold create_appointment at h1
    rw [if_pos ht] at h1
    simp only [optVal] at h1
    rw [hfresh] at h1
    exact h1
  obtain ⟨hv, nid, hg, hr, hc, hst⟩ := createFresh_ok_inv p1 (some k) g1 st r1 st1 h1f
  have hdb : st1.db = st.db ++ [r1] := by rw [hst]
  have hled : st1.ledger = alistInsert st.ledger k r1 := by
    rw [hst]; simp [ht, optVal]
  refine ⟨?_, hdb⟩
  unfold create_appointment
  rw [if_pos ht]
  simp only [optVal]
  rw [hled, alistLookup_insert_self]

/-- `C2` counterexample: the empty string is a key the code treats as
absent, so two creates with key `""` both mutate: the second returns a
different record and the store gains two records, contradicting the
claim quantified over every key. -/
theorem claim_C2_counterexample :
    create_appointment pay1 (some "") gen1 ⟨[], []⟩ =
        Except.ok (rec1, ⟨[rec1], []⟩) ∧
      create_appointment pay2 (some "") gen2 ⟨[rec1], []⟩ =
        Except.ok (rec2, ⟨[rec1, rec2], []⟩) ∧
      rec2 ≠ rec1 :=
  ⟨rfl, rfl, by decide⟩

/-- `C2` witness: concrete keyed create replayed by a second call. -/
theorem claim_C2_witness :
    create_appointment pay2 (some "kw") gen2 ⟨[rec1], [("kw", rec1)]⟩ =
        Except.ok (rec1, ⟨[rec1], [("kw", rec1)]⟩) ∧
      (⟨[rec1], [("kw", rec1)]⟩ : ServiceState).db =
        (⟨[], []⟩ : ServiceState).db ++ [rec1] :=
  claim_C2 pay1 pay2 "kw" gen1 gen2 ⟨[], []⟩ ⟨[rec1], [("kw", rec1)]⟩ rec1
    (by decide) rfl rfl

/-- `C4`: for a payload passing validation whose generated candidate
record has no scheduling conflicts, `create_appointment` returns and
appends a record with status forced to `Scheduled` (whatever status the
caller supplied in the payload) and a freshly generated id distinct
from every id already in the store; exhausting the bounded id-retry
instead fails with the fatal generation error. -/
theorem claim_C4 (payload : Payload) (gen : Nat → String) (st : ServiceState)
    (nid : String)
    (hval : (validate_appointment_data_detailed payload).1 = true)
    (hgen : generate_unique_id_with_retry st.db gen 10 = some nid)
    (hconf : detect_scheduling_conflicts (mkNewAppointment nid payload) st.db = []) :
    create_appointment payload none gen st =
        Except.ok (mkNewAppointment nid payload,
          ⟨st.db ++ [mkNewAppointment nid payload], st.ledger⟩) ∧
      (mkNewAppointment nid payload).status = "Scheduled" ∧
      (∀ x ∈ st.db, x.id ≠ nid) ∧
      (∀ g2, generate_unique_id_with_retry st.db g2 10 = none →
        create_appointment payload none g2 st =
          Except.error (CreateError.idGenerationFailed
            "Unable to generate unique appointment ID after 10 attempts")) := by
  refine ⟨?_, rfl, ?_, ?_⟩
  · unfold create_appointment
    rw [if_neg (by simp [optTruthy])]
    simp [createFresh, hval, hgen, hconf, optTruthy]
  · exact ensure_unique_fresh nid st.db (genIdAttempts_unique st.db gen 10 0 nid hgen)
  · intro g2 hg2
    unfold create_appointment
    rw [if_neg (by simp [optTruthy])]
    simp [createFresh, hval, hg2]

/-- `C4` witness: creating next to a boundary-touching record succeeds
with a fresh id and `Scheduled` status. -/
theorem claim_C4_witness :
    create_appointment pay1 none gen1 ⟨[apt3], []⟩ =
      Except.ok (mkNewAppointment "apt_11111111" pay1,
        ⟨[apt3] ++ [mkNewAppointment "apt_11111111" pay1], []⟩) :=
  (claim_C4 pay1 gen1 ⟨[apt3], []⟩ "apt_11111111" (by decide) (by decide)
    (by decide)).1

/-- Every list is frame-related to itself. -/
theorem frameRel_refl (appointment_id : String) :
    ∀ l : List Appointment, List.Forall₂ (frameRel appointment_id) l l := by
  intro l
  induction l with
  | nil => exact List.Forall₂.nil
  | cons a rest ih =>
    exact List.Forall₂.cons ⟨rfl, rfl, rfl, rfl, rfl, rfl, rfl, fun _ => rfl⟩ ih

/-- The update scan rewrites only the status of the located record. -/
theorem findAndUpdate_frame (appointment_id new_status : String) :
    ∀ l r l2, findAndUpdate appointment_id new_status l = some (r, l2) →
      List.Forall₂ (frameRel appointment_id) l l2 := by
  intro l
  induction l with
  | nil => intro r l2 h; exact absurd h (by simp [findAndUpdate])
  | cons a rest ih =>
    intro r l2 h
    by_cases ha : a.id = appointment_id
    · simp only [findAndUpdate, if_pos ha, Option.some.injEq, Prod.mk.injEq] at h
      rw [← h.2]
      exact List.Forall₂.cons
        ⟨rfl, rfl, rfl, rfl, rfl, rfl, rfl, fun hne => absurd ha hne⟩
        (frameRel_refl appointment_id rest)
    · simp only [findAndUpdate, if_neg ha] at h
      cases hrec : findAndUpdate appointment_id new_status rest with
      | none => rw [hrec] at h; simp at h
      | some pr =>
        obtain ⟨r2, rest2⟩ := pr
        rw [hrec] at h
        simp only [Option.some.injEq, Prod.mk.injEq] at h
        rw [← h.2]
        exact List.Forall₂.cons
          ⟨rfl, rfl, rfl, rfl, rfl, rfl, rfl, fun _ => rfl⟩
          (ih r2 rest2 hrec)

/-- The miss path of the status update only touches the status field. -/
theorem updateFresh_frame (appointment_id new_status : String)
    (key : Option String) (st : ServiceState) (r : Appointment) (st2 : ServiceState)
    (h : updateFresh appointment_id new_status key st = Except.ok (r, st2)) :
    List.Forall₂ (frameRel appointment_id) st.db st2.db := by
  unfold updateFresh at h
  by_cases h0 : appointment_id = ""
  · rw [if_pos h0] at h; simp at h
  · rw [if_neg h0] at h
    by_cases h1 : is_valid_status new_status = false
    · rw [if_pos h1] at h; simp at h
    · rw [if_neg h1] at h
      cases hf : findAndUpdate appointment_id new_status st.db with
      | none => rw [hf] at h; simp at h
      | some pr =>
        obtain ⟨r2, db2⟩ := pr
        rw [hf] at h
        simp only [Except.ok.injEq, Prod.mk.injEq] at h
        have hdb : st2.db = db2 := by rw [← h.2]
        rw [hdb]
        exact findAndUpdate_frame appointment_id new_status st.db r2 db2 hf

/-- `C9`: a successful `update_appointment_status` changes at most the
status field of the record carrying the updated id: every record keeps
its id, patient name, date, time, duration, doctor name and mode, and
every record with a different id also keeps its status. -/
theorem claim_C9 (appointment_id new_status : String) (key : Option String)
    (st : ServiceState) (r : Appointment) (st2 : ServiceState)
    (h : update_appointment_status appointment_id new_status key st =
      Except.ok (r, st2)) :
    List.Forall₂ (frameRel appointment_id) st.db st2.db := by
  unfold update_appointment_status at h
  by_cases hk : optTruthy key = true
  · rw [if_pos hk] at h
    cases hl : alistLookup st.ledger (optVal key) with
    | some r0 =>
      rw [hl] at h
      simp only [Except.ok.injEq, Prod.mk.injEq] at h
      rw [← h.2]
      exact frameRel_refl appointment_id st.db
    | none =>
      rw [hl] at h
      exact updateFresh_frame appointment_id new_status key st r st2 h
  · rw [if_neg hk] at h
    exact updateFresh_frame appointment_id new_status key st r st2 h

/-- `C9` witness: concrete successful update on a two-record store. -/
theorem claim_C9_witness :
    List.Forall₂ (frameRel "apt_a") [apt1, apt2] [setStatus apt1 "Confirmed", apt2] :=
  claim_C9 "apt_a" "Confirmed" none ⟨[apt1, apt2], []⟩ (setStatus apt1 "Confirmed")
    ⟨[setStatus apt1 "Confirmed", apt2], []⟩ rfl

/-- The conflict scan agrees with the spec filter when every stored time
parses. -/
theorem detectLoop_filter (apt : Appointment) (s : Int)
    (hs : parseTimeMinutes apt.time = some s) :
    ∀ db, (∀ x ∈ db, (parseTimeMinutes x.time).isSome = true) →
      detectLoop apt s (s + apt.duration) db =
        db.filter (fun x => conflictsWith apt x) := by
  intro db
  induction db with
  | nil => intro _; rfl
  | cons x rest ih =>
    intro hdb
    obtain ⟨t, ht⟩ := Option.isSome_iff_exists.mp (hdb x (by simp))
    have ihr := ih (fun y hy => hdb y (by simp [hy]))
    by_cases hd : x.date = apt.date
    · by_cases hdoc : x.doctorName = apt.doctorName
      · by_cases hid : x.id = apt.id
        · have hcw : conflictsWith apt x = false := by
            simp [conflictsWith, hs, ht, hid]
          simp [detectLoop, hd, hdoc, hid, List.filter_cons, hcw, ihr]
        · by_cases hov : s < t + x.duration ∧ s + apt.duration > t
          · have hcw : conflictsWith apt x = true := by
              simp [conflictsWith, hs, ht, hd, hdoc, hid, hov.1, hov.2]
            simp [detectLoop, hd, hdoc, hid, ht, hov, List.filter_cons, hcw, ihr]
          · have hcw : conflictsWith apt x = false := by
              simp [conflictsWith, hs, ht, hd, hdoc, hid]
              omega
            simp [detectLoop, hd, hdoc, hid, ht, hov, List.filter_cons, hcw, ihr]
      · have hcw : conflictsWith apt x = false := by
          simp [conflictsWith, hs, ht, hdoc]
        simp [detectLoop, hdoc, List.filter_cons, hcw, ihr]
    · have hcw : conflictsWith apt x = false := by
        simp [conflictsWith, hs, ht, hd]
      simp [detectLoop, hd, List.filter_cons, hcw, ihr]

/-- `C1`: on a store whose records all carry parseable times (the data
model guarantees `HH:MM`), `detect_scheduling_conflicts` returns exactly
the records sharing the candidate date and doctor with an id different
from the candidate whose half-open minute interval overlaps the
candidate interval strictly — touching intervals are never reported and
every matching record is returned. -/
theorem claim_C1 (apt : Appointment) (db : List Appointment)
    (hc : (parseTimeMinutes apt.time).isSome = true)
    (hdb : ∀ x ∈ db, (parseTimeMinutes x.time).isSome = true) :
    detect_scheduling_conflicts apt db = db.filter (fun x => conflictsWith apt x) := by
  obtain ⟨s, hs⟩ := Option.isSome_iff_exists.mp hc
  unfold detect_scheduling_conflicts
  rw [hs]
  exact detectLoop_filter apt s hs db hdb

/-- `C1` witness: concrete candidate overlapping one record and touching
none, on a two-record store. -/
theorem claim_C1_witness :
    detect_scheduling_conflicts apt2 [apt1, apt3] =
      [apt1, apt3].filter (fun x => conflictsWith apt2 x) :=
  claim_C1 apt2 [apt1, apt3] (by decide) (by decide)

/-- Lookup after insert-or-overwrite at an arbitrary key. -/
theorem alistLookup_insert {α : Type} (m : List (String × α)) (k k2 : String) (v : α) :
    alistLookup (alistInsert m k v) k2 = if k = k2 then some v else alistLookup m k2 := by
  induction m with
  | nil => rfl
  | cons hd tl ih =>
    obtain ⟨k3, w⟩ := hd
    simp only [alistInsert]
    by_cases h3 : k3 = k
    · rw [if_pos h3]
      subst h3
      by_cases h : k3 = k2 <;> simp [alistLookup, h]
    · rw [if_neg h3]
      simp only [alistLookup]
      by_cases h2 : k3 = k2
      · rw [if_pos h2]
        have hkk : ¬k = k2 := fun hh => h3 (h2.trans hh.symm)
        rw [if_neg hkk, if_pos h2]
      · rw [if_neg h2, ih]
        by_cases hkk : k = k2
        · rw [if_pos hkk, if_pos hkk]
        · rw [if_neg hkk, if_neg hkk, if_neg h2]

/-- Cluster access after insert-or-overwrite. -/
theorem clusterOf_insert (m : List (String × List Appointment)) (k k2 : String)
    (v : List Appointment) :
    clusterOf (alistInsert m k v) k2 = if k = k2 then v else clusterOf m k2 := by
  unfold clusterOf
  rw [alistLookup_insert]
  by_cases h : k = k2 <;> simp [h]

/-- Membership in the conditionally extended cluster list, from
membership in the original list. -/
theorem mem_cur3_of_mem {cur : List Appointment} {x a1 a2 : Appointment}
    (P Q : Prop) [Decidable P] [Decidable Q] (hx : x ∈ cur) :
    x ∈ (if Q then (if P then cur else cur ++ [a1])
         else ((if P then cur else cur ++ [a1]) ++ [a2])) := by
  by_cases hq : Q <;> by_cases hp : P <;> simp [hq, hp, hx]

/-- One scan iteration never removes a record from any cluster. -/
theorem processPair_mono (m : List (String × List Appointment)) (a1 a2 : Appointment)
    (k : String) (x : Appointment) (hx : x ∈ clusterOf m k) :
    x ∈ clusterOf (processPair m a1 a2) k := by
  by_cases hC1 : a1.date ≠ a2.date ∨ a1.doctorName ≠ a2.doctorName
  · simpa [processPair, hC1] using hx
  · cases hp1 : parseTimeMinutes a1.time with
    | none => simpa [processPair, hC1, hp1] using hx
    | some s1 =>
      cases hp2 : parseTimeMinutes a2.time with
      | none => simpa [processPair, hC1, hp1, hp2] using hx
      | some s2 =>
        by_cases hov : s1 < s2 + a2.duration ∧ s2 < s1 + a1.duration
        · simp only [processPair, hC1, hp1, hp2, hov, and_self, true_and, and_true,
            if_true, if_false]
          rw [clusterOf_insert]
          by_cases hk : overlapKey a1.date a1.doctorName s1 s2 = k
          · rw [if_pos hk]
            rw [← hk] at hx
            exact mem_cur3_of_mem _ _ hx
          · rw [if_neg hk]
            exact hx
        · simpa [processPair, hC1, hp1, hp2, hov] using hx

/-- The inner pair loop (fixed first record) never removes members. -/
theorem foldlProcess_mono (x : Appointment) :
    ∀ (xs : List Appointment) (m : List (String × List Appointment)) (k : String)
      (y : Appointment), y ∈ clusterOf m k →
      y ∈ clusterOf (xs.foldl (fun acc z => processPair acc x z) m) k := by
  intro xs
  induction xs with
  | nil => intro m k y h; exact h
  | cons z zs ih =>
    intro m k y h
    exact ih (processPair m x z) k y (processPair_mono m x z k y h)

/-- The whole pairwise scan never removes members. -/
theorem scanPairs_mono :
    ∀ (l : List Appointment) (m : List (String × List Appointment)) (k : String)
      (y : Appointment), y ∈ clusterOf m k → y ∈ clusterOf (scanPairs l m) k := by
  intro l
  induction l with
  | nil => intro m k y h; exact h
  | cons x xs ih =>
    intro m k y h
    exact ih _ k y (foldlProcess_mono x xs m k y h)

/-- Members of the conditionally extended cluster list come from the
original list or are one of the two appended records. -/
theorem mem_cur3_cases (cur : List Appointment) (x a1 a2 : Appointment)
    (hx : x ∈ (if a2.id ∈ cur.map (fun apt => apt.id)
          then (if a1.id ∈ cur.map (fun apt => apt.id) then cur else cur ++ [a1])
          else ((if a1.id ∈ cur.map (fun apt => apt.id) then cur else cur ++ [a1])
            ++ [a2]))) :
    x ∈ cur ∨ x = a1 ∨ x = a2 := by
  by_cases h1 : a1.id ∈ cur.map (fun apt => apt.id) <;>
    by_cases h2 : a2.id ∈ cur.map (fun apt => apt.id) <;>
    simp [h1, h2, List.mem_append] at hx <;> tauto

/-- The stale-id-list guards still keep per-cluster ids duplicate-free,
as long as the two scanned records have distinct ids. -/
theorem cur3_nodup (cur : List Appointment) (a1 a2 : Appointment)
    (hne : a1.id ≠ a2.id) (hnd : (cur.map (fun apt => apt.id)).Nodup) :
    (((if a2.id ∈ cur.map (fun apt => apt.id)
        then (if a1.id ∈ cur.map (fun apt => apt.id) then cur else cur ++ [a1])
        else ((if a1.id ∈ cur.map (fun apt => apt.id) then cur else cur ++ [a1])
          ++ [a2]))).map (fun apt => apt.id)).Nodup := by
  by_cases h1 : a1.id ∈ cur.map (fun apt => apt.id) <;>
    by_cases h2 : a2.id ∈ cur.map (fun apt => apt.id) <;>
    simp [h1, h2, hnd, hne, Ne.symm hne, List.nodup_append]

/-- The first record of a processed pair lands in the extended cluster,
as long as an id hit implies it was already a member. -/
theorem a1_mem_cur3 (cur : List Appointment) (a1 a2 : Appointment)
    (h : a1.id ∈ cur.map (fun apt => apt.id) → a1 ∈ cur) :
    a1 ∈ (if a2.id ∈ cur.map (fun apt => apt.id)
          then (if a1.id ∈ cur.map (fun apt => apt.id) then cur else cur ++ [a1])
          else ((if a1.id ∈ cur.map (fun apt => apt.id) then cur else cur ++ [a1])
            ++ [a2])) := by
  by_cases h1 : a1.id ∈ cur.map (fun apt => apt.id)
  · have ha := h h1
    by_cases h2 : a2.id ∈ cur.map (fun apt => apt.id) <;> simp [h1, h2, ha]
  · by_cases h2 : a2.id ∈ cur.map (fun apt => apt.id) <;> simp [h1, h2]

/-- The second record of a processed pair lands in the extended cluster,
as long as an id hit implies it was already a member. -/
theorem a2_mem_cur3 (cur : List Appointment) (a1 a2 : Appointment)
    (h : a2.id ∈ cur.map (fun apt => apt.id) → a2 ∈ cur) :
    a2 ∈ (if a2.id ∈ cur.map (fun apt => apt.id)
          then (if a1.id ∈ cur.map (fun apt => apt.id) then cur else cur ++ [a1])
          else ((if a1.id ∈ cur.map (fun apt => apt.id) then cur else cur ++ [a1])
            ++ [a2])) := by
  by_cases h2 : a2.id ∈ cur.map (fun apt => apt.id)
  · have ha := h h2
    by_cases h1 : a1.id ∈ cur.map (fun apt => apt.id) <;> simp [h1, h2, ha]
  · by_cases h1 : a1.id ∈ cur.map (fun apt => apt.id) <;> simp [h1, h2]

/-- One scan iteration preserves the overlap-scan invariant when the
pair records come from the collection and have distinct ids. -/
theorem processPair_inv (S : List Appointment)
    (m : List (String × List Appointment)) (a1 a2 : Appointment)
    (ha1 : a1 ∈ S) (ha2 : a2 ∈ S) (hne : a1.id ≠ a2.id)
    (hinv : OverlapInv S m) : OverlapInv S (processPair m a1 a2) := by
  by_cases hC1 : a1.date ≠ a2.date ∨ a1.doctorName ≠ a2.doctorName
  · simpa [processPair, hC1] using hinv
  · cases hp1 : parseTimeMinutes a1.time with
    | none => simpa [processPair, hC1, hp1] using hinv
    | some s1 =>
      cases hp2 : parseTimeMinutes a2.time with
      | none => simpa [processPair, hC1, hp1, hp2] using hinv
      | some s2 =>
        by_cases hov : s1 < s2 + a2.duration ∧ s2 < s1 + a1.duration
        · simp only [processPair, hC1, hp1, hp2, hov, and_self, true_and, and_true,
            if_true, if_false]
          intro k
          rw [clusterOf_insert]
          by_cases hk : overlapKey a1.date a1.doctorName s1 s2 = k
          · rw [if_pos hk]
            constructor
            · intro x hx
              rcases mem_cur3_cases _ x a1 a2 hx with hc | rfl | rfl
              · exact (hinv (overlapKey a1.date a1.doctorName s1 s2)).1 x hc
              · exact ha1
              · exact ha2
            · exact cur3_nodup _ a1 a2 hne
                (hinv (overlapKey a1.date a1.doctorName s1 s2)).2
          · rw [if_neg hk]
            exact hinv k
        · simpa [processPair, hC1, hp1, hp2, hov] using hinv

/-- A processed overlapping pair puts both of its records into the
cluster at its key. -/
theorem processPair_hit (S : List Appointment)
    (m : List (String × List Appointment)) (a1 a2 : Appointment)
    (ha1 : a1 ∈ S) (ha2 : a2 ∈ S)
    (hinj : ∀ x ∈ S, ∀ y ∈ S, x.id = y.id → x = y)
    (hinv : OverlapInv S m) (hp : pairHit a1 a2) :
    a1 ∈ clusterOf (processPair m a1 a2) (pairKey a1 a2) ∧
      a2 ∈ clusterOf (processPair m a1 a2) (pairKey a1 a2) := by
  obtain ⟨hd, hdoc, sa, sb, hpa, hpb, ho1, ho2⟩ := hp
  have hC1 : ¬(a1.date ≠ a2.date ∨ a1.doctorName ≠ a2.doctorName) := by
    simp [hd, hdoc]
  have hkey : pairKey a1 a2 = overlapKey a1.date a1.doctorName sa sb := by
    simp [pairKey, hpa, hpb]
  rw [hkey]
  simp only [processPair, hC1, hpa, hpb, ho1, ho2, and_self, true_and, and_true,
    if_true, if_false]
  rw [clusterOf_insert, if_pos rfl]
  constructor
  · apply a1_mem_cur3
    intro h1
    obtain ⟨y, hy, hyid⟩ := List.mem_map.mp h1
    have hyS : y ∈ S :=
      (hinv (overlapKey a1.date a1.doctorName sa sb)).1 y hy
    have heq := hinj y hyS a1 ha1 hyid
    rw [heq] at hy
    exact hy
  · apply a2_mem_cur3
    intro h2
    obtain ⟨y, hy, hyid⟩ := List.mem_map.mp h2
    have hyS : y ∈ S :=
      (hinv (overlapKey a1.date a1.doctorName sa sb)).1 y hy
    have heq := hinj y hyS a2 ha2 hyid
    rw [heq] at hy
    exact hy

/-- The overlap relation of the spec is symmetric. -/
theorem pairHit_symm {a b : Appointment} (h : pairHit a b) : pairHit b a := by
  obtain ⟨hd, hdoc, sa, sb, hpa, hpb, h1, h2⟩ := h
  exact ⟨hd.symm, hdoc.symm, sb, sa, hpb, hpa, h2, h1⟩

/-- The cluster key of an overlapping pair does not depend on the order
of the pair. -/
theorem pairKey_symm {a b : Appointment} (h : pairHit a b) :
    pairKey b a = pairKey a b := by
  obtain ⟨hd, hdoc, sa, sb, hpa, hpb, _, _⟩ := h
  simp [pairKey, overlapKey, hpa, hpb, ← hd, ← hdoc, min_comm]

/-- The inner pair loop keeps the invariant and records every hit pair
formed with its fixed first record. -/
theorem foldlProcess_main (S : List Appointment)
    (hinj : ∀ x ∈ S, ∀ y ∈ S, x.id = y.id → x = y)
    (x : Appointment) (hx : x ∈ S) :
    ∀ (xs : List Appointment) (m : List (String × List Appointment)),
      (∀ y ∈ xs, y ∈ S) → (∀ y ∈ xs, x.id ≠ y.id) → OverlapInv S m →
      OverlapInv S (xs.foldl (fun acc z => processPair acc x z) m) ∧
      ∀ b ∈ xs, pairHit x b →
        x ∈ clusterOf (xs.foldl (fun acc z => processPair acc x z) m) (pairKey x b) ∧
        b ∈ clusterOf (xs.foldl (fun acc z => processPair acc x z) m) (pairKey x b) := by
  intro xs
  induction xs with
  | nil => intro m _ _ hinv; exact ⟨hinv, by simp⟩
  | cons z zs ih =>
    intro m hsub hids hinv
    have hzS : z ∈ S := hsub z (by simp)
    have hzsS : ∀ y ∈ zs, y ∈ S := fun y hy => hsub y (by simp [hy])
    have hzid : x.id ≠ z.id := hids z (by simp)
    have hzsid : ∀ y ∈ zs, x.id ≠ y.id := fun y hy => hids y (by simp [hy])
    have hinv1 : OverlapInv S (processPair m x z) :=
      processPair_inv S m x z hx hzS hzid hinv
    obtain ⟨hinvF, hrec⟩ := ih (processPair m x z) hzsS hzsid hinv1
    refine ⟨hinvF, ?_⟩
    intro b hb hp
    rcases List.mem_cons.mp hb with rfl | hbzs
    · have hhit := processPair_hit S m x b hx hzS hinj hinv hp
      exact ⟨foldlProcess_mono x zs _ _ _ hhit.1, foldlProcess_mono x zs _ _ _ hhit.2⟩
    · exact hrec b hbzs hp

/-- The full pairwise scan keeps the invariant and records every hit
pair of the scanned collection (assuming pairwise distinct ids). -/
theorem scanPairs_main (S : List Appointment)
    (hinj : ∀ x ∈ S, ∀ y ∈ S, x.id = y.id → x = y) :
    ∀ (l : List Appointment) (m : List (String × List Appointment)),
      (∀ y ∈ l, y ∈ S) → (l.map (fun a => a.id)).Nodup → OverlapInv S m →
      OverlapInv S (scanPairs l m) ∧
      ∀ a ∈ l, ∀ b ∈ l, a ≠ b → pairHit a b →
        a ∈ clusterOf (scanPairs l m) (pairKey a b) ∧
        b ∈ clusterOf (scanPairs l m) (pairKey a b) := by
  intro l
  induction l with
  | nil => intro m _ _ hinv; exact ⟨hinv, by simp⟩
  | cons x xs ih =>
    intro m hsub hnd hinv
    rw [List.map_cons, List.nodup_cons] at hnd
    have hxS : x ∈ S := hsub x (by simp)
    have hxsS : ∀ y ∈ xs, y ∈ S := fun y hy => hsub y (by simp [hy])
    have hxid : ∀ y ∈ xs, x.id ≠ y.id := by
      intro y hy heq
      exact hnd.1 (heq ▸ List.mem_map_of_mem (fun a => a.id) hy)
    obtain ⟨hinv1, hfold⟩ := foldlProcess_main S hinj x hxS xs m hxsS hxid hinv
    obtain ⟨hinvF, hrec⟩ := ih _ hxsS hnd.2 hinv1
    refine ⟨hinvF, ?_⟩
    intro a ha b hb hne hp
    rcases List.mem_cons.mp ha with rfl | haxs <;> rcases List.mem_cons.mp hb with rfl | hbxs
    · exact absurd rfl hne
    · exact ⟨scanPairs_mono xs _ _ _ (hfold b hbxs hp).1,
        scanPairs_mono xs _ _ _ (hfold b hbxs hp).2⟩
    · have hsym := pairHit_symm hp
      have hf := hfold a haxs hsym
      rw [← pairKey_symm hp]
      exact ⟨scanPairs_mono xs _ _ _ hf.2, scanPairs_mono xs _ _ _ hf.1⟩
    · exact hrec a haxs b hbxs hne hp

/-- `C8` (amended): for every collection whose records carry pairwise
distinct ids (as store snapshots do) and every unordered overlapping
pair on one date and doctor, `get_overlapping_appointments` places both
records of the pair into the cluster keyed by date, doctor and the
smaller start, and no cluster ever holds two entries with the same id —
a record already present is not appended again.  Without the
distinct-id assumption the stale membership list can append a record
twice, as the counterexample shows. -/
theorem claim_C8 (appointments : List Appointment) (date : Option String)
    (hnd : ((filterByDate appointments date).map (fun a => a.id)).Nodup) :
    (∀ a ∈ filterByDate appointments date, ∀ b ∈ filterByDate appointments date,
      a ≠ b → pairHit a b →
        a ∈ clusterOf (get_overlapping_appointments appointments date) (pairKey a b) ∧
        b ∈ clusterOf (get_overlapping_appointments appointments date) (pairKey a b)) ∧
    (∀ k l, alistLookup (get_overlapping_appointments appointments date) k = some l →
      (l.map (fun a => a.id)).Nodup) := by
  by_cases happ : appointments.isEmpty = true
  · rw [List.isEmpty_iff.mp happ]
    constructor
    · intro a ha
      exfalso
      by_cases ht : optTruthy date = true <;> simp [filterByDate, ht] at ha
    · intro k l hl
      simp [get_overlapping_appointments, alistLookup] at hl
  · have hform : get_overlapping_appointments appointments date =
        scanPairs (filterByDate appointments date) [] := by
      simp [get_overlapping_appointments, happ]
    have hinj : ∀ x ∈ filterByDate appointments date,
        ∀ z ∈ filterByDate appointments date, x.id = z.id → x = z := by
      intro x hx z hz heq
      exact List.inj_on_of_nodup_map hnd hx hz heq
    have hinv0 : OverlapInv (filterByDate appointments date) [] := by
      intro k
      constructor
      · intro x hx
        simp [clusterOf, alistLookup] at hx
      · simp [clusterOf, alistLookup]
    obtain ⟨hinvF, hmem⟩ := scanPairs_main (filterByDate appointments date) hinj
      (filterByDate appointments date) [] (fun z hz => hz) hnd hinv0
    constructor
    · intro a ha b hb hne hp
      rw [hform]
      exact hmem a ha b hb hne hp
    · intro k l hl
      rw [hform] at hl
      have hn := (hinvF k).2
      have hcl : clusterOf (scanPairs (filterByDate appointments date) []) k = l := by
        simp [clusterOf, hl]
      rw [hcl] at hn
      exact hn

/-- `C8` counterexample: a collection listing the same record twice (two
entries with one id) makes the stale membership list append the record
a second time into its cluster, so a record already present by id is
appended again. -/
theorem claim_C8_counterexample :
    clusterOf (get_overlapping_appointments [apt1, apt1] none) "2024-02-01_Dr. X_540" =
        [apt1, apt1] ∧
      ¬ ((clusterOf (get_overlapping_appointments [apt1, apt1] none)
          "2024-02-01_Dr. X_540").map (fun a => a.id)).Nodup :=
  ⟨rfl, by decide⟩

/-- `C8` witness: a concrete overlapping pair lands in its cluster. -/
theorem claim_C8_witness :
    apt1 ∈ clusterOf (get_overlapping_appointments [apt1, apt2] none)
      (pairKey apt1 apt2) :=
  ((claim_C8 [apt1, apt2] none (by decide)).1 apt1 (by decide) apt2 (by decide)
    (by decide) ⟨rfl, rfl, 540, 555, rfl, rfl, by decide, by decide⟩).1
